import Mathlib

/-!
Verification development for the Elasticsearch ILM-policy planner/reconciler and
principal provisioner in `pkg/controller/utils/elasticsearch.go` of the
tigera-operator repository.

The Go code is shallowly embedded as follows:
  - Go `int` / `int64` values become `Int`; Go truncating conversions and
    integer division become `Int.tdiv` (truncation toward zero).
  - Go `float64` arithmetic in `calculateRolloverSize` is modelled with exact
    rational arithmetic (`ℚ`), with the final `int64(...)` conversion modelled
    as truncation toward zero.
  - Remote Elasticsearch calls are modelled by an environment of response
    functions; each operation returns the list of wire calls it issued together
    with its result, so claims about which calls happen (and in which order)
    become statements about the produced call trace.
  - Go map iteration in `createOrUpdatePolicies` is modelled by a list of
    `(indexName, policyDetail)` pairs: the list is one possible iteration order
    of the map, and theorems quantify over all such lists.
  - A Go nil slice versus an empty-but-non-nil slice (which JSON-marshal to
    `null` versus `[]`) is modelled by `Option (List String)`: `none` is the
    nil slice, `some []` the empty non-nil slice.
  - A Go nil interface / nil pointer result is modelled by `Option`.
-/

namespace TigeraES

/-! ## Constants (source lines 42-47) -/

def ElasticsearchRetentionFactor : Int := 4

def DefaultMaxIndexSizeGi : Int := 30

def ElasticConnRetries : Nat := 10

/-- Milliseconds denoted by the Go constant `ElasticConnRetryInterval = "500ms"`
after `time.ParseDuration`. -/
def ElasticConnRetryIntervalMs : Nat := 500

/-- Value in bytes of `resource.MustParse("30Gi")`, i.e. 30 * 2^30. -/
def maxRolloverSizeBytes : Int := DefaultMaxIndexSizeGi * 1024 ^ 3

/-! ## Storage budget planner (source lines 547-577) -/

/-- Truncation of a rational toward zero, the semantics of the Go conversion
`int64(x)` applied to a non-NaN float value. -/
def ratTrunc (q : ℚ) : Int := Int.tdiv q.num (q.den : Int)

/-- Numeric part of `calculateRolloverSize` (source lines 550-559): the bytes
value before formatting. The Go float64 product is modelled exactly in `ℚ`. -/
def calculateRolloverSizeBytes (totalEsStorage : Int) (diskPercentage : ℚ)
    (diskForLogType : ℚ) : Int :=
  let rolloverSize : Int :=
    ratTrunc ((totalEsStorage : ℚ) * diskPercentage * diskForLogType /
      (ElasticsearchRetentionFactor : ℚ))
  if rolloverSize > maxRolloverSizeBytes then maxRolloverSizeBytes else rolloverSize

/-- Model of `calculateRolloverSize` (source lines 550-560): the capped bytes
value formatted with `fmt.Sprintf("%db", rolloverSize)`. -/
def calculateRolloverSize (totalEsStorage : Int) (diskPercentage : ℚ)
    (diskForLogType : ℚ) : String :=
  toString (calculateRolloverSizeBytes totalEsStorage diskPercentage diskForLogType) ++ "b"

/-- Model of `calculateRolloverAge` (source lines 566-577). Go integer division
truncates toward zero, hence `Int.tdiv`. -/
def calculateRolloverAge (retention : Int) : String :=
  if retention ≤ 0 then "1h"
  else if retention < ElasticsearchRetentionFactor then "1d"
  else toString (Int.tdiv retention ElasticsearchRetentionFactor) ++ "d"

/-! ## Policy synthesizer (source lines 491-535)

The nested `map[string]interface{}` document built by `buildILMPolicy` is given
an explicit record shape holding exactly the data the Go code puts in the map:
hot rollover thresholds and priority 100, warm priority 50 with the readonly
action present iff `readOnlyAfterRollover`, and the delete phase with its
`min_age` and unconditional delete action. -/

structure ILMRollover where
  max_size : String
  max_age : String
deriving DecidableEq, Repr

structure ILMHotPhase where
  rollover : ILMRollover
  priority : Nat
deriving DecidableEq, Repr

structure ILMWarmPhase where
  priority : Nat
  /-- True iff the `readonly` action key is present in the warm actions map. -/
  readonly : Bool
deriving DecidableEq, Repr

structure ILMDeletePhase where
  min_age : String
deriving DecidableEq, Repr

structure ILMPolicyDoc where
  hot : ILMHotPhase
  warm : ILMWarmPhase
  delete : ILMDeletePhase
deriving DecidableEq, Repr

/-- Model of the Go struct `policyDetail` (source lines 70-76). -/
structure policyDetail where
  rolloverAge : String
  rolloverSize : String
  deleteAge : String
  readOnlyAfterRollover : Bool
  policy : ILMPolicyDoc
deriving DecidableEq, Repr

/-- Model of `buildILMPolicy` (source lines 491-535). -/
def buildILMPolicy (totalEsStorage : Int) (totalDiskPercentage : ℚ)
    (percentOfDiskForLogType : ℚ) (retention : Int)
    (readOnlyAfterRollover : Bool) : policyDetail :=
  let rolloverSize := calculateRolloverSize totalEsStorage totalDiskPercentage percentOfDiskForLogType
  let rolloverAge := calculateRolloverAge retention
  let deleteAge := toString retention ++ "d"
  { rolloverAge := rolloverAge
    rolloverSize := rolloverSize
    deleteAge := deleteAge
    readOnlyAfterRollover := readOnlyAfterRollover
    policy :=
      { hot := { rollover := { max_size := rolloverSize, max_age := rolloverAge }
                 priority := 100 }
        warm := { priority := 50, readonly := readOnlyAfterRollover }
        delete := { min_age := deleteAge } } }

/-! ## Observed policies and `extractPolicyDetails` (source lines 49-68, 648-663)

The Go struct `Policy` into which an observed document is JSON-unmarshalled is
mirrored field by field; the `readonly,omitempty` pointer becomes
`Option Unit`. -/

structure PolicyRollover where
  max_size : String
  max_age : String
deriving DecidableEq, Repr

structure PolicyHotActions where
  rollover : PolicyRollover
deriving DecidableEq, Repr

structure PolicyWarmActions where
  readonly : Option Unit
deriving DecidableEq, Repr

structure PolicyPhases where
  hotActions : PolicyHotActions
  warmActions : PolicyWarmActions
  deleteMinAge : String
deriving DecidableEq, Repr

/-- Model of the Go struct `Policy` (source lines 49-68). -/
structure Policy where
  phases : PolicyPhases
deriving DecidableEq, Repr

/-- Model of `extractPolicyDetails` (source lines 648-663) on an observed
document already in structured form: returns
`(currentMaxAge, currentMaxSize, currentMinAge, readOnlyAfterRollover)`. -/
def extractPolicyDetails (p : Policy) : String × String × String × Bool :=
  (p.phases.hotActions.rollover.max_age,
   p.phases.hotActions.rollover.max_size,
   p.phases.deleteMinAge,
   p.phases.warmActions.readonly.isSome)

/-! ## Policy diff & apply engine (source lines 463-489, 537-545)

The remote store is an environment: `fetch` is the response of
`XPackIlmGetLifecycle` for a policy name (NotFound, a found document, or
another error), `applyRes` the result of `XPackIlmPutLifecycle` (`none` is
success). Every operation returns the list of wire calls it issued paired with
its `error` result (`none` is a nil Go error). -/

inductive FetchResult where
  | notFound
  | found (p : Policy)
  | err (e : String)
deriving DecidableEq, Repr

structure ESEnv where
  fetch : String → FetchResult
  applyRes : String → Option String

inductive ESCall where
  | getLifecycle (policyName : String)
  | putLifecycle (policyName : String) (doc : ILMPolicyDoc)
deriving DecidableEq, Repr

/-- Model of `applyILMPolicy` (source lines 537-545): one put of the full
document under the name `indexName ++ "_policy"`, propagating the put error. -/
def applyILMPolicy (env : ESEnv) (indexName : String) (doc : ILMPolicyDoc) :
    List ESCall × Option String :=
  let policyName := indexName ++ "_policy"
  ([ESCall.putLifecycle policyName doc], env.applyRes policyName)

/-- Model of `createOrUpdatePolicies` (source lines 463-489) on one iteration
order of the Go map. Faithful to the source, the function RETURNS the result of
`applyILMPolicy` as soon as a category needs an apply (both in the NotFound
branch and in the mismatch branch), instead of continuing with the remaining
categories; it only continues past a category whose four compared fields all
equal the desired ones. -/
def createOrUpdatePolicies (env : ESEnv) :
    List (String × policyDetail) → List ESCall × Option String
  | [] => ([], none)
  | (indexName, pd) :: rest =>
    let policyName := indexName ++ "_policy"
    match env.fetch policyName with
    | FetchResult.err e => ([ESCall.getLifecycle policyName], some e)
    | FetchResult.notFound =>
      let (calls, res) := applyILMPolicy env indexName pd.policy
      (ESCall.getLifecycle policyName :: calls, res)
    | FetchResult.found p =>
      let (currentMaxAge, currentMaxSize, currentMinAge, readOnlyAfterRollover) :=
        extractPolicyDetails p
      if currentMaxAge ≠ pd.rolloverAge ∨ currentMaxSize ≠ pd.rolloverSize ∨
          currentMinAge ≠ pd.deleteAge ∨ readOnlyAfterRollover ≠ pd.readOnlyAfterRollover then
        let (calls, res) := applyILMPolicy env indexName pd.policy
        (ESCall.getLifecycle policyName :: calls, res)
      else
        let (calls, res) := createOrUpdatePolicies env rest
        (ESCall.getLifecycle policyName :: calls, res)

/-- Names of the put (apply) calls in a trace, in order. -/
def putNames (calls : List ESCall) : List String :=
  calls.filterMap fun c =>
    match c with
    | ESCall.putLifecycle n _ => some n
    | ESCall.getLifecycle _ => none

/-- Decides whether one category would require an apply: its fetch reports
NotFound, or it is found and at least one of the four compared fields differs
from the desired detail. (A fetch error is not an apply.) -/
def needsApply (env : ESEnv) (np : String × policyDetail) : Bool :=
  match env.fetch (np.1 ++ "_policy") with
  | FetchResult.notFound => true
  | FetchResult.err _ => false
  | FetchResult.found p =>
    let (currentMaxAge, currentMaxSize, currentMinAge, readOnlyAfterRollover) :=
      extractPolicyDetails p
    decide (currentMaxAge ≠ np.2.rolloverAge ∨ currentMaxSize ≠ np.2.rolloverSize ∨
      currentMinAge ≠ np.2.deleteAge ∨ readOnlyAfterRollover ≠ np.2.readOnlyAfterRollover)

/-! ## Principals and roles (source lines 266-307) -/

structure RoleIndex where
  Names : List String
  Privileges : List String
deriving DecidableEq, Repr

structure Application where
  Application : String
  Privileges : List String
  Resources : List String
deriving DecidableEq, Repr

structure RoleDefinition where
  Cluster : List String
  Indices : List RoleIndex
  Applications : List Application
deriving DecidableEq, Repr

/-- Model of the Go struct `Role`; the possibly-nil `*RoleDefinition` pointer
becomes an `Option`. -/
structure Role where
  Name : String
  Definition : Option RoleDefinition
deriving DecidableEq, Repr

structure User where
  Username : String
  Password : String
  Roles : List Role
deriving DecidableEq, Repr

/-- A Go `[]string` slice: `none` is the nil slice (JSON `null`), `some l` a
non-nil slice with elements `l` (JSON array, `[]` when empty). -/
def GoStrSlice : Type := Option (List String)

/-- Go `append` on a `[]string`: appending to a nil slice allocates; the result
is always non-nil. -/
def goAppend (s : GoStrSlice) (x : String) : GoStrSlice :=
  some ((Option.getD s []) ++ [x])

/-- Model of `User.RoleNames` (source lines 274-284): starts from the
explicitly allocated empty slice `names := []string{}` (non-nil) and appends
each role name in order. -/
def User.RoleNames (u : User) : GoStrSlice :=
  u.Roles.foldl (fun names role => goAppend names role.Name) (some [])

/-! ## Principal & role synchronizer (source lines 309-399)

The security API of the remote store is again an environment of response
functions (`none` is success), and each operation returns the list of wire
calls it issued paired with its error result. -/

/-- Body sent by `XPackSecurityPutUser` (source lines 348-351): the `roles`
field is a Go `[]string`, so `none` would marshal as JSON `null`. -/
structure UserBody where
  password : String
  roles : GoStrSlice

inductive SecCall where
  | putRole (name : String)
  | putUser (name : String) (body : UserBody)
  | delRole (name : String)
  | delUser (name : String)

structure SecEnv where
  putRoleRes : String → Option String
  putUserRes : String → Option String
  delRoleRes : String → Option String
  delUserRes : String → Option String

/-- Model of `createRole` (source lines 321-332): an empty role name is
rejected before any wire call; otherwise one put-role call is issued and its
error propagated. -/
def createRole (env : SecEnv) (role : Role) : List SecCall × Option String :=
  if role.Name = "" then ([], some "cannot create a role with an empty name")
  else ([SecCall.putRole role.Name], env.putRoleRes role.Name)

/-- Model of `CreateRoles` (source lines 310-318): create each role in order,
stopping at the first error. -/
def CreateRoles (env : SecEnv) : List Role → List SecCall × Option String
  | [] => ([], none)
  | role :: rest =>
    let (calls, res) := createRole env role
    match res with
    | some e => (calls, some e)
    | none =>
      let (calls2, res2) := CreateRoles env rest
      (calls ++ calls2, res2)

/-- Model of `CreateUser` (source lines 334-360): first upsert every role of
the user that has a non-nil definition (fail-fast), then upsert the principal
with body `{password, roles := u.RoleNames}`. -/
def CreateUser (env : SecEnv) (u : User) : List SecCall × Option String :=
  let rolesToCreate := u.Roles.filter fun role => role.Definition.isSome
  let (roleCalls, roleRes) :=
    if rolesToCreate.length > 0 then CreateRoles env rolesToCreate else ([], none)
  match roleRes with
  | some e => (roleCalls, some e)
  | none =>
    let body : UserBody := { password := u.Password, roles := u.RoleNames }
    (roleCalls ++ [SecCall.putUser u.Username body], env.putUserRes u.Username)

/-- Model of `deleteRole` (source lines 374-385): an empty role name is
rejected before any wire call; otherwise one delete-role call is issued and
its error propagated. -/
def deleteRole (env : SecEnv) (role : Role) : List SecCall × Option String :=
  if role.Name = "" then ([], some "cannot delete a role with an empty name")
  else ([SecCall.delRole role.Name], env.delRoleRes role.Name)

/-- Model of `DeleteRoles` (source lines 363-371): delete each role in order,
stopping at the first error. -/
def DeleteRoles (env : SecEnv) : List Role → List SecCall × Option String
  | [] => ([], none)
  | role :: rest =>
    let (calls, res) := deleteRole env role
    match res with
    | some e => (calls, some e)
    | none =>
      let (calls2, res2) := DeleteRoles env rest
      (calls ++ calls2, res2)

/-- Model of `DeleteUser` (source lines 387-399): delete all roles of the user
first (fail-fast: a role-delete error is returned without touching the
principal), then issue exactly one delete-user call. -/
def DeleteUser (env : SecEnv) (u : User) : List SecCall × Option String :=
  let (roleCalls, roleRes) := DeleteRoles env u.Roles
  match roleRes with
  | some e => (roleCalls, some e)
  | none =>
    (roleCalls ++ [SecCall.delUser u.Username], env.delUserRes u.Username)

/-! ## Connection bootstrapper (source lines 126-205, 581-612)

`getClientCredentials` first reads the admin secret and validates it; the
subsequent CA-pool resolution (`getESRoots`) and the optional mTLS material
are not needed by any claim and are modelled by an abstract `Except` parameter
that preserves the control flow (its failure also aborts construction before
the retry loop). -/

/-- Model of the credential-extraction part of `getClientCredentials` (source
lines 588-598). The secret `Data` map is given as a list of key/value pairs:
unless it has exactly one entry the function fails; the single key is the
username and the single value the password, and an empty username or password
also fails. -/
def getClientCredentials (data : List (String × String)) :
    Except String (String × String) :=
  if data.length ≠ 1 then
    Except.error "secret does not contain only 1 entry for credentials"
  else
    let username := (data.headD ("", "")).1
    let password := (data.headD ("", "")).2
    if username = "" ∨ password = "" then
      Except.error "username or password is empty"
    else
      Except.ok (username, password)

/-- Model of the Go struct `esClient` (source lines 122-124): a wrapper whose
inner `*elastic.Client` pointer may be nil. -/
structure EsClientWrapper (α : Type) where
  client : Option α
deriving DecidableEq, Repr

/-- Model of the retry loop of `NewElasticClient` (source lines 194-202).
`attempt i` is the result of the i-th `elastic.NewClient` construction; `fuel`
is the number of remaining loop iterations (initially `ElasticConnRetries`).
Returns `(attempts made, sleeps made, esCli, err)` where `esCli` and `err` are
the values of the Go loop variables when the loop exits: on success the loop
breaks before sleeping with a nil error; on failure it sleeps 500 ms (counted
in the second component) and retries, and when the fuel runs out `esCli` is
nil and `err` is the error of the last attempt. -/
def connLoop {α : Type} (attempt : Nat → Except String α) :
    Nat → Nat → Nat × Nat × Option α × Option String
  | _, 0 => (0, 0, none, none)
  | i, 1 =>
    match attempt i with
    | Except.ok c => (1, 0, some c, none)
    | Except.error e => (1, 1, none, some e)
  | i, (fuel + 2) =>
    match attempt i with
    | Except.ok c => (1, 0, some c, none)
    | Except.error _ =>
      let (n, s, cli, err) := connLoop attempt (i + 1) (fuel + 1)
      (n + 1, s + 1, cli, err)

/-- Model of `NewElasticClient` (source lines 126-205). The early failure
paths (`getClientCredentials` and the CA / mTLS material, here `tlsSetup`)
return a nil client (`none`) with the error; the final path always returns the
non-nil wrapper `&esClient{client: esCli}` — even when every construction
attempt failed and `esCli` is nil — together with the final error of the loop.
The result is `(attempts, sleeps, returned client, returned error)`. -/
def NewElasticClient {α : Type} (credsData : List (String × String))
    (tlsSetup : Except String Unit) (attempt : Nat → Except String α) :
    Nat × Nat × Option (EsClientWrapper α) × Option String :=
  match getClientCredentials credsData with
  | Except.error e => (0, 0, none, some e)
  | Except.ok _ =>
    match tlsSetup with
    | Except.error e => (0, 0, none, some e)
    | Except.ok _ =>
      let (n, s, cli, err) := connLoop attempt 0 ElasticConnRetries
      (n, s, some { client := cli }, err)

/-! ## Concrete objects used to evaluate the model on specific inputs -/

/-- A concrete synthesized document with literal threshold strings. -/
def exDoc : ILMPolicyDoc :=
  { hot := { rollover := { max_size := "30gb", max_age := "1d" }, priority := 100 }
    warm := { priority := 50, readonly := true }
    delete := { min_age := "5d" } }

/-- A concrete desired policy detail whose document is `exDoc`. -/
def exDetail : policyDetail :=
  { rolloverAge := "1d", rolloverSize := "30gb", deleteAge := "5d"
    readOnlyAfterRollover := true, policy := exDoc }

/-- An observed document whose four compared fields equal those of `exDetail`. -/
def exPolicyMatching : Policy :=
  { phases :=
    { hotActions := { rollover := { max_size := "30gb", max_age := "1d" } }
      warmActions := { readonly := some () }
      deleteMinAge := "5d" } }

/-- Remote store in which every policy fetch reports NotFound and every apply
succeeds. -/
def exEnvNotFound : ESEnv :=
  { fetch := fun _ => FetchResult.notFound, applyRes := fun _ => none }

/-- Remote store in which every policy fetch finds `exPolicyMatching` and every
apply succeeds. -/
def exEnvAllEqual : ESEnv :=
  { fetch := fun _ => FetchResult.found exPolicyMatching, applyRes := fun _ => none }

/-- A two-category iteration order of the policy map. -/
def exTwoCategories : List (String × policyDetail) :=
  [("tigera_secure_ee_flows", exDetail), ("tigera_secure_ee_dns", exDetail)]

/-- A security environment in which every remote security call succeeds. -/
def exSecEnv : SecEnv :=
  { putRoleRes := fun _ => none, putUserRes := fun _ => none
    delRoleRes := fun _ => none, delUserRes := fun _ => none }

/-- A concrete user with two attached roles. -/
def exUserTwoRoles : User :=
  { Username := "tigera-ee-linseed", Password := "pw"
    Roles := [{ Name := "role-a", Definition := none },
              { Name := "role-b", Definition := none }] }

/-- A construction-attempt function that always fails. -/
def exFailAttempt : Nat → Except String Nat :=
  fun i => Except.error ("connect failure " ++ toString i)

/-- Another always-failing construction-attempt function. -/
def exFailAttemptU : Nat → Except String Unit :=
  fun i => Except.error ("no route " ++ toString i)

/-! ## Theorems -/

/-- The numeric rollover size is the minimum of the truncated budget formula
and the fixed cap. -/
theorem calculateRolloverSizeBytes_eq_min (t : Int) (p c : ℚ) :
    calculateRolloverSizeBytes t p c =
      min (ratTrunc ((t : ℚ) * p * c / (ElasticsearchRetentionFactor : ℚ)))
        maxRolloverSizeBytes := by
  unfold calculateRolloverSizeBytes
  dsimp only
  split <;> omega

/-- C3: for total storage > 0, share fractions in [0,1] and retention ≥ 0, the
rollover size string is the byte-count formatting of
min(total * majorOrMinorShare * categoryShare / 4, 30GiB) truncated to whole
bytes, and its numeric value never exceeds 30 GiB (32212254720 bytes). -/
theorem calculateRolloverSize_spec (total : Int) (p c : ℚ) (retention : Int)
    (htotal : 0 < total) (hp0 : 0 ≤ p) (hp1 : p ≤ 1) (hc0 : 0 ≤ c) (hc1 : c ≤ 1)
    (hret : 0 ≤ retention) :
    calculateRolloverSize total p c =
      toString (min (ratTrunc ((total : ℚ) * p * c / (ElasticsearchRetentionFactor : ℚ)))
        maxRolloverSizeBytes) ++ "b" ∧
    calculateRolloverSizeBytes total p c ≤ maxRolloverSizeBytes ∧
    maxRolloverSizeBytes = 32212254720 := by
  refine ⟨?_, ?_, by norm_num [maxRolloverSizeBytes, DefaultMaxIndexSizeGi]⟩
  · unfold calculateRolloverSize
    rw [calculateRolloverSizeBytes_eq_min]
  · rw [calculateRolloverSizeBytes_eq_min]
    exact min_le_right _ _

/-- Witness for C3 at a concrete input (1 TB total, the flows shares). -/
theorem calculateRolloverSize_spec_witness :
    calculateRolloverSize 1000000000000 (7/10) (85/100) =
      toString (min (ratTrunc ((1000000000000 : ℚ) * (7/10) * (85/100) /
        (ElasticsearchRetentionFactor : ℚ))) maxRolloverSizeBytes) ++ "b" ∧
    calculateRolloverSizeBytes 1000000000000 (7/10) (85/100) ≤ maxRolloverSizeBytes ∧
    maxRolloverSizeBytes = 32212254720 :=
  calculateRolloverSize_spec 1000000000000 (7/10) (85/100) 8 (by norm_num)
    (by norm_num) (by norm_num) (by norm_num) (by norm_num) (by norm_num)

/-- C4: the rollover age is "1h" for retention ≤ 0, "1d" for 0 < retention < 4,
and the truncating integer division retention/4 in days otherwise. -/
theorem calculateRolloverAge_spec (r : Int) :
    (r ≤ 0 → calculateRolloverAge r = "1h") ∧
    (0 < r → r < 4 → calculateRolloverAge r = "1d") ∧
    (4 ≤ r → calculateRolloverAge r = toString (Int.tdiv r 4) ++ "d") := by
  refine ⟨fun h => ?_, fun h1 h2 => ?_, fun h => ?_⟩
  · simp [calculateRolloverAge, h]
  · have hn : ¬ r ≤ 0 := by omega
    simp [calculateRolloverAge, ElasticsearchRetentionFactor, hn, h2]
  · have hn : ¬ r ≤ 0 := by omega
    have hn2 : ¬ r < (4 : Int) := by omega
    simp [calculateRolloverAge, ElasticsearchRetentionFactor, hn, hn2]

/-- Witness for C4: the three concrete evaluations named by the claim. -/
theorem calculateRolloverAge_spec_witness :
    calculateRolloverAge 0 = "1h" ∧ calculateRolloverAge 1 = "1d" ∧
    calculateRolloverAge 8 = "2d" := by
  refine ⟨(calculateRolloverAge_spec 0).1 (by norm_num),
    (calculateRolloverAge_spec 1).2.1 (by norm_num) (by norm_num), ?_⟩
  have h := (calculateRolloverAge_spec 8).2.2 (by norm_num)
  rw [h]
  rfl

/-- C5: the delete minimum age of a synthesized policy is the literal string
"{retention}d" for every integer retention, with no guard, both in the stored
detail and in the synthesized document; retention 0 yields "0d". -/
theorem buildILMPolicy_deleteAge_spec (total : Int) (p c : ℚ) (retention : Int)
    (ro : Bool) :
    (buildILMPolicy total p c retention ro).deleteAge = toString retention ++ "d" ∧
    (buildILMPolicy total p c retention ro).policy.delete.min_age =
      toString retention ++ "d" ∧
    (buildILMPolicy total p c 0 ro).deleteAge = "0d" ∧
    (buildILMPolicy total p c (-3) ro).deleteAge = "-3d" := by
  exact ⟨rfl, rfl, rfl, rfl⟩

/-- Folding `goAppend` over a role list starting from a non-nil slice yields
the non-nil slice extended with the role names in order. -/
theorem foldl_goAppend_eq (roles : List Role) :
    ∀ acc : List String,
      roles.foldl (fun names role => goAppend names role.Name) (some acc) =
        some (acc ++ roles.map Role.Name) := by
  induction roles with
  | nil => intro acc; simp
  | cons r rest ih =>
    intro acc
    simp only [List.foldl_cons, List.map_cons]
    rw [show goAppend (some acc) r.Name = some (acc ++ [r.Name]) from rfl, ih]
    simp

/-- C8: the role-name list of a principal is never the nil slice: it is the
non-nil list of the names of its roles in order, an empty (but present) list
for a principal with zero roles, and the upsert body built by `CreateUser` for
a zero-role principal carries exactly that empty list. -/
theorem RoleNames_never_null (u : User) (env : SecEnv) (n p : String) :
    u.RoleNames = some (u.Roles.map Role.Name) ∧
    User.RoleNames { Username := n, Password := p, Roles := [] } = some [] ∧
    (CreateUser env { Username := n, Password := p, Roles := [] }).1 =
      [SecCall.putUser n { password := p, roles := some [] }] := by
  refine ⟨?_, rfl, rfl⟩
  unfold User.RoleNames
  simpa using foldl_goAppend_eq u.Roles []

/-- A role-deletion sweep never issues a principal-delete call. -/
theorem DeleteRoles_no_delUser (env : SecEnv) (roles : List Role) (name : String) :
    SecCall.delUser name ∉ (DeleteRoles env roles).1 := by
  induction roles with
  | nil => simp [DeleteRoles]
  | cons r rest ih =>
    simp only [DeleteRoles]
    by_cases hr : r.Name = ""
    · simp [deleteRole, hr]
    · simp only [deleteRole, if_neg hr]
      cases hres : env.delRoleRes r.Name with
      | some e => simp
      | none => simpa using ih

/-- When every role delete succeeds, the sweep issues exactly one delete call
per role, in order, and reports success. -/
theorem DeleteRoles_success (env : SecEnv) (roles : List Role)
    (h : ∀ r ∈ roles, r.Name ≠ "" ∧ env.delRoleRes r.Name = none) :
    DeleteRoles env roles = (roles.map fun r => SecCall.delRole r.Name, none) := by
  induction roles with
  | nil => simp [DeleteRoles]
  | cons r rest ih =>
    obtain ⟨hname, hres⟩ := h r (List.mem_cons_self r rest)
    have ihr := ih fun x hx => h x (List.mem_cons_of_mem r hx)
    simp [DeleteRoles, deleteRole, if_neg hname, hres, ihr]

/-- C9: `DeleteUser` issues a role-delete call for every attached role, in
order, before issuing exactly one principal-delete call; if the role sweep
fails, the principal-delete call is never issued and the sweep error is
returned. -/
theorem DeleteUser_spec (env : SecEnv) (u : User) :
    ((∀ r ∈ u.Roles, r.Name ≠ "" ∧ env.delRoleRes r.Name = none) →
      (DeleteUser env u).1 =
        (u.Roles.map fun r => SecCall.delRole r.Name) ++ [SecCall.delUser u.Username] ∧
      (DeleteUser env u).2 = env.delUserRes u.Username) ∧
    (∀ e, (DeleteRoles env u.Roles).2 = some e →
      SecCall.delUser u.Username ∉ (DeleteUser env u).1 ∧
      (DeleteUser env u).2 = some e) := by
  constructor
  · intro h
    have hr := DeleteRoles_success env u.Roles h
    constructor
    · simp [DeleteUser, hr]
    · simp [DeleteUser, hr]
  · intro e he
    have hmem := DeleteRoles_no_delUser env u.Roles u.Username
    cases hd : DeleteRoles env u.Roles with
    | mk calls res =>
      rw [hd] at he hmem
      simp only at he hmem
      subst he
      constructor
      · simpa [DeleteUser, hd] using hmem
      · simp [DeleteUser, hd]

/-- Witness for C9 at a two-role principal with an all-success store. -/
theorem DeleteUser_spec_witness :
    (DeleteUser exSecEnv exUserTwoRoles).1 =
      [SecCall.delRole "role-a", SecCall.delRole "role-b",
       SecCall.delUser "tigera-ee-linseed"] ∧
    (DeleteUser exSecEnv exUserTwoRoles).2 = none := by
  have h := (DeleteUser_spec exSecEnv exUserTwoRoles).1 (by
    intro r hr
    have hcases : r = Role.mk "role-a" none ∨ r = Role.mk "role-b" none := by
      simpa [exUserTwoRoles] using hr
    rcases hcases with rfl | rfl <;> exact ⟨by simp, rfl⟩)
  refine ⟨?_, h.2.trans rfl⟩
  rw [h.1]
  rfl

/-- C2: when the observed policy of every category has all four compared fields
equal to the desired values, reconciliation fetches every category, issues
zero remote writes, and succeeds — so a second application of identical
policies performs no apply call. -/
theorem createOrUpdatePolicies_idempotent (env : ESEnv)
    (l : List (String × policyDetail))
    (h : ∀ np ∈ l, ∃ p, env.fetch (np.1 ++ "_policy") = FetchResult.found p ∧
      extractPolicyDetails p =
        (np.2.rolloverAge, np.2.rolloverSize, np.2.deleteAge, np.2.readOnlyAfterRollover)) :
    (createOrUpdatePolicies env l).1 =
      l.map (fun np => ESCall.getLifecycle (np.1 ++ "_policy")) ∧
    putNames (createOrUpdatePolicies env l).1 = [] ∧
    (createOrUpdatePolicies env l).2 = none := by
  induction l with
  | nil => exact ⟨rfl, rfl, rfl⟩
  | cons np rest ih =>
    obtain ⟨p, hf, he⟩ := h np (List.mem_cons_self np rest)
    have ihr := ih fun x hx => h x (List.mem_cons_of_mem np hx)
    obtain ⟨hcalls, hputs, hres⟩ := ihr
    cases np with
    | mk indexName pd =>
      have hcond : ¬ ((extractPolicyDetails p).1 ≠ pd.rolloverAge ∨
          (extractPolicyDetails p).2.1 ≠ pd.rolloverSize ∨
          (extractPolicyDetails p).2.2.1 ≠ pd.deleteAge ∨
          (extractPolicyDetails p).2.2.2 ≠ pd.readOnlyAfterRollover) := by
        simp [he]
      refine ⟨?_, ?_, ?_⟩ <;>
        simp [createOrUpdatePolicies, hf, he, putNames, hcalls, hres,
          hputs, List.filterMap_cons] at hcond ⊢

/-- Witness for C2: both categories observed equal to desired; two fetches,
no puts, success. -/
theorem createOrUpdatePolicies_idempotent_witness :
    (createOrUpdatePolicies exEnvAllEqual exTwoCategories).1 =
      exTwoCategories.map (fun np => ESCall.getLifecycle (np.1 ++ "_policy")) ∧
    putNames (createOrUpdatePolicies exEnvAllEqual exTwoCategories).1 = [] ∧
    (createOrUpdatePolicies exEnvAllEqual exTwoCategories).2 = none := by
  refine createOrUpdatePolicies_idempotent exEnvAllEqual exTwoCategories ?_
  intro np hnp
  refine ⟨exPolicyMatching, rfl, ?_⟩
  have hcases : np = ("tigera_secure_ee_flows", exDetail) ∨
      np = ("tigera_secure_ee_dns", exDetail) := by
    simpa [exTwoCategories] using hnp
  rcases hcases with rfl | rfl <;> rfl

/-- C1 evaluation: with two categories whose fetches both report NotFound and
all applies succeeding, `createOrUpdatePolicies` issues the apply for the
first category and then returns success immediately — the second category is
never fetched and never applied, although its fetch would also report
NotFound. -/
theorem createOrUpdatePolicies_returns_after_first_apply :
    exEnvNotFound.fetch "tigera_secure_ee_flows_policy" = FetchResult.notFound ∧
    exEnvNotFound.fetch "tigera_secure_ee_dns_policy" = FetchResult.notFound ∧
    createOrUpdatePolicies exEnvNotFound exTwoCategories =
      ([ESCall.getLifecycle "tigera_secure_ee_flows_policy",
        ESCall.putLifecycle "tigera_secure_ee_flows_policy" exDoc], none) ∧
    putNames (createOrUpdatePolicies exEnvNotFound exTwoCategories).1 =
      ["tigera_secure_ee_flows_policy"] := by
  exact ⟨rfl, rfl, rfl, rfl⟩

/-- C6: credential resolution fails exactly when the secret does not hold
exactly one entry, or the single key (username) is empty, or the single value
(password) is empty; otherwise it returns the key/value pair. On a credential
failure the client constructor returns a nil client, makes zero construction
attempts, and surfaces the error. -/
theorem getClientCredentials_spec (data : List (String × String)) :
    ((∃ e, getClientCredentials data = Except.error e) ↔
      (data.length ≠ 1 ∨ ∃ k v, data = [(k, v)] ∧ (k = "" ∨ v = ""))) ∧
    (∀ k v, k ≠ "" → v ≠ "" → getClientCredentials [(k, v)] = Except.ok (k, v)) ∧
    (∀ e, getClientCredentials data = Except.error e →
      ∀ (α : Type) (tls : Except String Unit) (attempt : Nat → Except String α),
        NewElasticClient data tls attempt = (0, 0, none, some e)) := by
  refine ⟨?_, ?_, ?_⟩
  · match data with
    | [] => simp [getClientCredentials]
    | [(k, v)] =>
      by_cases hkv : k = "" ∨ v = ""
      · simp only [getClientCredentials, List.length_singleton, ne_eq,
          not_true_eq_false, if_false, List.headD_cons, if_pos hkv]
        constructor
        · intro _
          exact Or.inr ⟨k, v, rfl, hkv⟩
        · intro _
          exact ⟨"username or password is empty", rfl⟩
      · simp only [getClientCredentials, List.length_singleton, ne_eq,
          not_true_eq_false, if_false, List.headD_cons, if_neg hkv]
        constructor
        · rintro ⟨e, he⟩
          exact absurd he (by simp)
        · rintro (hlen | ⟨k2, v2, heq, hor⟩)
          · simp at hlen
          · obtain ⟨hk2, hv2⟩ : k = k2 ∧ v = v2 := by
              simpa [Prod.ext_iff] using heq
            subst hk2
            subst hv2
            exact absurd hor hkv
    | (a :: b :: rest) => simp [getClientCredentials]
  · intro k v hk hv
    simp [getClientCredentials, hk, hv]
  · intro e he α tls attempt
    simp [NewElasticClient, he]

/-- Witness for C6: a one-entry secret with non-empty key and value resolves
to that credential pair, and an empty secret aborts construction with the
error and no attempts. -/
theorem getClientCredentials_spec_witness :
    getClientCredentials [("admin", "pw")] = Except.ok ("admin", "pw") ∧
    NewElasticClient ([] : List (String × String)) (Except.ok ()) exFailAttempt =
      (0, 0, none, some "secret does not contain only 1 entry for credentials") := by
  refine ⟨(getClientCredentials_spec [("admin", "pw")]).2.1 "admin" "pw"
    (by decide) (by decide), ?_⟩
  exact (getClientCredentials_spec []).2.2 _ rfl Nat (Except.ok ()) exFailAttempt

/-- When every attempt in the next `fuel + 1` iterations fails, the loop makes
exactly `fuel + 1` attempts, sleeps after each failure, exits with a nil
client, and keeps the error of the last attempt. -/
theorem connLoop_fail_range {α : Type} (attempt : Nat → Except String α)
    (e : Nat → String) :
    ∀ (fuel i : Nat),
      (∀ j, i ≤ j → j < i + (fuel + 1) → attempt j = Except.error (e j)) →
      connLoop attempt i (fuel + 1) = (fuel + 1, fuel + 1, none, some (e (i + fuel))) := by
  intro fuel
  induction fuel with
  | zero =>
    intro i h
    have hi := h i (le_refl i) (by omega)
    simp [connLoop, hi]
  | succ f ihf =>
    intro i h
    have hi := h i (le_refl i) (by omega)
    have ih := ihf (i + 1) (fun j hj1 hj2 => h j (by omega) (by omega))
    show connLoop attempt i (f + 2) = _
    rw [connLoop, hi]
    simp only [ih]
    refine congrArg (fun x => (f + 1 + 1, f + 1 + 1, (none : Option α), some (e x))) ?_
    omega

/-- When the first success is at index `i + k` (all earlier attempts in the
window failing) and the loop has more than `k` iterations left, it makes
exactly `k + 1` attempts, sleeps `k` times, and exits with the client and a
nil error. -/
theorem connLoop_first_success {α : Type} (attempt : Nat → Except String α)
    (e : Nat → String) (c : α) :
    ∀ (k fuel i : Nat), k < fuel →
      attempt (i + k) = Except.ok c →
      (∀ j, j < k → attempt (i + j) = Except.error (e (i + j))) →
      connLoop attempt i fuel = (k + 1, k, some c, none) := by
  intro k
  induction k with
  | zero =>
    intro fuel i hk hok _
    have hi : attempt i = Except.ok c := by simpa using hok
    match fuel, hk with
    | 1, _ => simp [connLoop, hi]
    | (f + 2), _ => simp [connLoop, hi]
  | succ k ihk =>
    intro fuel i hk hok hfail
    match fuel, hk with
    | (f + 2), _ =>
      have hi : attempt i = Except.error (e i) := by simpa using hfail 0 (by omega)
      have ih := ihk (f + 1) (i + 1) (by omega)
        (by rw [show i + 1 + k = i + (k + 1) from by omega]; exact hok)
        (fun j hj => by
          rw [show i + 1 + j = i + (j + 1) from by omega]
          exact hfail (j + 1) (by omega))
      rw [connLoop, hi]
      simp [ih]

/-- C7: with a resolvable credential secret and TLS material, if every
construction attempt fails the bootstrapper makes exactly 10 attempts with a
500 ms sleep after each failure and returns the error of the 10th attempt; if the
first success is attempt k < 10, it stops there and returns that client with a
nil error. -/
theorem NewElasticClient_retry_spec {α : Type} (credsData : List (String × String))
    (cr : String × String) (hcreds : getClientCredentials credsData = Except.ok cr)
    (attempt : Nat → Except String α) (e : Nat → String) :
    ElasticConnRetryIntervalMs = 500 ∧
    ((∀ i, i < 10 → attempt i = Except.error (e i)) →
      NewElasticClient credsData (Except.ok ()) attempt =
        (10, 10, some { client := none }, some (e 9))) ∧
    (∀ (k : Nat) (c : α), k < 10 → attempt k = Except.ok c →
      (∀ j, j < k → attempt j = Except.error (e j)) →
      NewElasticClient credsData (Except.ok ()) attempt =
        (k + 1, k, some { client := some c }, none)) := by
  refine ⟨rfl, ?_, ?_⟩
  · intro h
    have hl := connLoop_fail_range attempt e 9 0 (fun j _ hj2 => h j (by omega))
    norm_num at hl
    simp [NewElasticClient, hcreds, ElasticConnRetries, hl]
  · intro k c hk hok hfail
    have hl := connLoop_first_success attempt e c k 10 0 hk (by simpa using hok)
      (fun j hj => by simpa using hfail j hj)
    simp [NewElasticClient, hcreds, ElasticConnRetries, hl]

/-- Witness for C7: ten failing attempts yield exactly 10 attempts, 10 sleeps,
a wrapper around a nil inner client, and the 10th error. -/
theorem NewElasticClient_retry_spec_witness :
    NewElasticClient [("admin", "pw")] (Except.ok ()) exFailAttempt =
      (10, 10, some { client := none }, some ("connect failure " ++ toString 9)) :=
  (NewElasticClient_retry_spec [("admin", "pw")] ("admin", "pw") rfl exFailAttempt
    (fun i => "connect failure " ++ toString i)).2.1 (fun _ _ => rfl)

/-- C10: when all 10 construction attempts fail, the returned interface value
is non-nil — a wrapper holding a nil inner client — alongside the error of the 10th
attempt, so a caller checking only the client for nil gets an unusable
non-nil client. -/
theorem NewElasticClient_nonnil_on_failure {α : Type}
    (credsData : List (String × String)) (cr : String × String)
    (hcreds : getClientCredentials credsData = Except.ok cr)
    (attempt : Nat → Except String α) (e : Nat → String)
    (h : ∀ i, i < 10 → attempt i = Except.error (e i)) :
    (NewElasticClient credsData (Except.ok ()) attempt).2.2.1 ≠ none ∧
    (NewElasticClient credsData (Except.ok ()) attempt).2.2.1 =
      some { client := none } ∧
    (NewElasticClient credsData (Except.ok ()) attempt).2.2.2 = some (e 9) := by
  have hl := connLoop_fail_range attempt e 9 0 (fun j _ hj2 => h j (by omega))
  norm_num at hl
  refine ⟨?_, ?_, ?_⟩ <;>
    simp [NewElasticClient, hcreds, ElasticConnRetries, hl]

/-- Witness for C10 on a concrete always-failing attempt function. -/
theorem NewElasticClient_nonnil_on_failure_witness :
    (NewElasticClient [("admin", "pw")] (Except.ok ()) exFailAttemptU).2.2.1 =
      some { client := none } ∧
    (NewElasticClient [("admin", "pw")] (Except.ok ()) exFailAttemptU).2.2.2 =
      some ("no route " ++ toString 9) := by
  have h := NewElasticClient_nonnil_on_failure [("admin", "pw")] ("admin", "pw") rfl
    exFailAttemptU (fun i => "no route " ++ toString i) (fun _ _ => rfl)
  exact ⟨h.2.1, h.2.2⟩

end TigeraES
